import Mathlib

/-!
Verification of the cached-fetch-with-stale-fallback routine of `llm_xai.py`
(`fetch_cached_json`, `get_xAI_models`, `DownloadError`).

The embedding is a shallow state-passing model.  The filesystem is modelled
at the one path the call touches: whether a file exists there (and its raw
text content), its modification time, and whether the parent directories
exist.  Time is the integer value of `time.time()` at call entry.  The HTTP
layer (`httpx.get` with `follow_redirects=True` followed by
`raise_for_status`) is a function from the issued request to either a
transport error or a final response with a status code and body.  The JSON
library (`json.load`, `json.dump`, `response.json()`) is an abstract
parse/serialize pair, since its internals are external to this repository.
The credential lookup `llm.get_key("", "xai", "LLM_XAI_KEY")` is an
environment input.  Exceptions become an `Except` result; the outcome
records the final file state and the list of network requests issued.
-/

namespace LlmXai

/-- JSON values, the result type of Python's `json` parsing. -/
inductive Json where
  | null : Json
  | bool : Bool → Json
  | num : Int → Json
  | str : String → Json
  | arr : List Json → Json
  | obj : List (String × Json) → Json

/-- Result of Python subscripting `j["k"]`: the value when `j` is a mapping
containing the key, `keyMissing` (Python `KeyError`) when `j` is a mapping
without the key, and `notSubscriptable` (Python `TypeError`) otherwise. -/
inductive SubscriptResult where
  | found : Json → SubscriptResult
  | keyMissing : SubscriptResult
  | notSubscriptable : SubscriptResult

/-- Python subscript `j[k]` with a string key. -/
def Json.subscript : Json → String → SubscriptResult
  | .obj fields, k =>
    match fields.lookup k with
    | some v => .found v
    | none => .keyMissing
  | _, _ => .notSubscriptable

/-- The external JSON library: `parse` models `json.load` / `Response.json`
(returning `none` on a `JSONDecodeError`), `dump` models `json.dump`. -/
structure JsonLib where
  parse : String → Option Json
  dump : Json → String

/-- Result of `httpx.get(url, headers, follow_redirects=True)`: either a
transport-level failure (an `httpx.HTTPError` raised by the client) or a
final response carrying an HTTP status code and a raw body. -/
inductive HttpResult where
  | transportError : HttpResult
  | response : Nat → String → HttpResult

/-- `httpx.Response.raise_for_status` raises unless the status is 2xx. -/
def statusSuccess (status : Nat) : Bool :=
  decide (200 ≤ status) && decide (status < 300)

/-- An outgoing HTTP request as issued by `fetch_cached_json`. -/
structure Request where
  url : String
  headers : List (String × String)
  followRedirects : Bool

/-- The call environment: current time (`time.time()`), the credential
returned by `llm.get_key("", "xai", "LLM_XAI_KEY")`, the directory returned
by `llm.user_dir()`, the network, and the JSON library. -/
structure Env where
  now : Int
  key : String
  userDir : String
  net : Request → HttpResult
  lib : JsonLib

/-- The filesystem as seen at the cache path: `content` is `some` raw text
when a file exists at `path` (`path.is_file()`), `mtime` is its
modification time (`path.stat().st_mtime`, meaningful only when the file
exists), and `parentExists` records whether the parent directories of
`path` exist. -/
structure FileState where
  content : Option String
  mtime : Int
  parentExists : Bool

/-- Exceptions `fetch_cached_json` can raise: a `JSONDecodeError` from
parsing (cache file, fallback file, or response body), or the repository's
`DownloadError` carrying its message string. -/
inductive FetchError where
  | jsonParseError : FetchError
  | downloadError : String → FetchError

/-- Outcome of a call: the returned value or raised exception, the final
state of the filesystem at the cache path, and each network request issued,
in order. -/
structure FetchOutcome where
  result : Except FetchError Json
  fs : FileState
  requests : List Request

/-- The headers dict built in `fetch_cached_json`:
`Authorization: Bearer <key>` and `Content-Type: application/json`. -/
def requestHeaders (key : String) : List (String × String) :=
  [("Authorization", "Bearer " ++ key), ("Content-Type", "application/json")]

/-- The single GET request `fetch_cached_json` issues for `url`, with the
headers above and `follow_redirects=True`. -/
def theRequest (env : Env) (url : String) : Request :=
  ⟨url, requestHeaders env.key, true⟩

/-- The freshness test `time.time() - mod_time < cache_timeout`. -/
def cacheFresh (now mtime timeout : Int) : Bool :=
  decide (now - mtime < timeout)

/-- The message of the `DownloadError` raised on terminal failure. -/
def downloadErrorMessage (path : String) : String :=
  "Failed to download data and no cache is available at " ++ path

/-- The `except httpx.HTTPError` handler: if a file exists at `path`, load
and parse it; otherwise raise `DownloadError`.  `reqs` is the request trace
accumulated before the handler runs. -/
def staleFallback (env : Env) (path : String) (fs : FileState)
    (reqs : List Request) : FetchOutcome :=
  match fs.content with
  | some c =>
    match env.lib.parse c with
    | some v => ⟨.ok v, fs, reqs⟩
    | none => ⟨.error .jsonParseError, fs, reqs⟩
  | none => ⟨.error (.downloadError (downloadErrorMessage path)), fs, reqs⟩

/-- The `try` block of `fetch_cached_json` from `httpx.get` onward: issue
the GET; on transport error or non-2xx status fall into the handler; on
success, `open(path, "w")` truncates the file first, then
`json.dump(response.json(), file)` parses the body — a parse failure
escapes after the truncation, since `JSONDecodeError` is not an
`httpx.HTTPError` — and on parse success the serialized value is written
and the parsed value returned. -/
def networkStep (env : Env) (url path : String) (fs : FileState) :
    FetchOutcome :=
  let req := theRequest env url
  match env.net req with
  | .transportError => staleFallback env path fs [req]
  | .response status body =>
    if statusSuccess status then
      let truncated : FileState := ⟨some "", env.now, true⟩
      match env.lib.parse body with
      | none => ⟨.error .jsonParseError, truncated, [req]⟩
      | some v => ⟨.ok v, ⟨some (env.lib.dump v), env.now, true⟩, [req]⟩
    else
      staleFallback env path fs [req]

/-- `fetch_cached_json(url, path, cache_timeout)`: create the parent
directories, resolve the key, and if a file exists at `path` and is fresh,
parse and return it; otherwise run the network step. -/
def fetch_cached_json (env : Env) (url path : String) (cache_timeout : Int)
    (fs0 : FileState) : FetchOutcome :=
  let fs1 : FileState := ⟨fs0.content, fs0.mtime, true⟩
  match fs1.content with
  | some c =>
    if cacheFresh env.now fs1.mtime cache_timeout then
      match env.lib.parse c with
      | some v => ⟨.ok v, fs1, []⟩
      | none => ⟨.error .jsonParseError, fs1, []⟩
    else networkStep env url path fs1
  | none => networkStep env url path fs1

/-- The condition under which the `try` block of `fetch_cached_json` raises
an `httpx.HTTPError`: the client raises a transport error, or the final
response has a non-2xx status so `raise_for_status` raises. -/
def netFetchFails (env : Env) (url : String) : Prop :=
  env.net (theRequest env url) = .transportError ∨
  ∃ status body, env.net (theRequest env url) = .response status body ∧
    statusSuccess status = false

/-- Errors `get_xAI_models` can raise: anything from `fetch_cached_json`,
a `KeyError` on the `["data"]` subscript, or a `TypeError` when the fetched
document is not a mapping. -/
inductive GetModelsError where
  | fetchError : FetchError → GetModelsError
  | keyError : String → GetModelsError
  | typeError : GetModelsError

/-- Outcome of `get_xAI_models`, threading the fetch outcome's state. -/
structure GetModelsOutcome where
  result : Except GetModelsError Json
  fs : FileState
  requests : List Request

/-- `get_xAI_models()`: fetch the model listing from the fixed URL into
`llm.user_dir() / "xAI_models.json"` with a 3600-second timeout, then
subscript the result with `["data"]`. -/
def get_xAI_models (env : Env) (fs0 : FileState) : GetModelsOutcome :=
  let out := fetch_cached_json env "https://api.x.ai/v1/models"
    (env.userDir ++ "/xAI_models.json") 3600 fs0
  match out.result with
  | .error e => ⟨.error (.fetchError e), out.fs, out.requests⟩
  | .ok j =>
    match j.subscript "data" with
    | .found v => ⟨.ok v, out.fs, out.requests⟩
    | .keyMissing => ⟨.error (.keyError "data"), out.fs, out.requests⟩
    | .notSubscriptable => ⟨.error .typeError, out.fs, out.requests⟩

/-! Concrete environments used by the witnesses. -/

/-- A toy JSON library for concrete evaluation: `"bad"` fails to parse,
`"nodata"` parses to an object without a `"data"` key, everything else
parses to an object with one, and serialization is constant. -/
def libA : JsonLib where
  parse s :=
    if s = "bad" then none
    else if s = "nodata" then some (.obj [])
    else some (.obj [("data", .arr [])])
  dump _ := "dumped"

/-- The JSON value every well-formed `libA` string parses to. -/
def jsonA : Json := .obj [("data", .arr [])]

/-- A network that always returns status 200 with the given body. -/
def netOk (body : String) : Request → HttpResult :=
  fun _ => .response 200 body

/-- A network that always raises a transport error. -/
def netDown : Request → HttpResult :=
  fun _ => .transportError

/-- A concrete environment at time 100 over the given network. -/
def envW (net : Request → HttpResult) : Env :=
  ⟨100, "k", "home", net, libA⟩

/-- A file written at time 90 holding a well-formed payload. -/
def fsGood : FileState := ⟨some "good", 90, false⟩

/-- A file written at time 90 holding an unparseable payload. -/
def fsBad : FileState := ⟨some "bad", 90, false⟩

/-- No file at the cache path. -/
def fsNone : FileState := ⟨none, 0, false⟩

/-! The claims. -/

/-- C1: if a file exists at `path` and `now - file_mtime < cache_timeout`,
`fetch_cached_json` parses that file's contents as JSON and returns the
parsed value, and no network request is made. -/
theorem fresh_cache_short_circuit (env : Env) (url path : String)
    (t : Int) (fs : FileState) (c : String) (v : Json)
    (hfile : fs.content = some c)
    (hfresh : env.now - fs.mtime < t)
    (hparse : env.lib.parse c = some v) :
    (fetch_cached_json env url path t fs).result = .ok v ∧
    (fetch_cached_json env url path t fs).requests = [] := by
  have hf : cacheFresh env.now fs.mtime t = true := decide_eq_true hfresh
  simp [fetch_cached_json, hfile, hf, hparse]

theorem fresh_cache_short_circuit_witness :
    (fetch_cached_json (envW netDown) "u" "p" 3600 fsGood).result =
      .ok jsonA ∧
    (fetch_cached_json (envW netDown) "u" "p" 3600 fsGood).requests = [] :=
  fresh_cache_short_circuit (envW netDown) "u" "p" 3600 fsGood "good" jsonA
    rfl (by decide) rfl

/-- C2: if the cache is not fresh, the network fetch fails (transport error
or non-success status), and a file exists at `path`, `fetch_cached_json`
returns that file's contents parsed as JSON and raises no exception. -/
theorem stale_fallback_on_network_failure (env : Env) (url path : String)
    (t : Int) (fs : FileState) (c : String) (v : Json)
    (hfile : fs.content = some c)
    (hstale : ¬ (env.now - fs.mtime < t))
    (hfail : netFetchFails env url)
    (hparse : env.lib.parse c = some v) :
    (fetch_cached_json env url path t fs).result = .ok v := by
  have hf : cacheFresh env.now fs.mtime t = false := decide_eq_false hstale
  rcases hfail with h | ⟨status, body, h, hs⟩
  · simp [fetch_cached_json, hfile, hf, networkStep, h, staleFallback, hparse]
  · simp [fetch_cached_json, hfile, hf, networkStep, h, hs, staleFallback,
      hparse]

theorem stale_fallback_on_network_failure_witness :
    (fetch_cached_json (envW netDown) "u" "p" 5 fsGood).result =
      .ok jsonA :=
  stale_fallback_on_network_failure (envW netDown) "u" "p" 5 fsGood "good"
    jsonA rfl (by decide) (Or.inl rfl) rfl

/-- C3: if the network fetch fails and no file exists at `path`,
`fetch_cached_json` raises a `DownloadError` whose message carries the
attempted path, and exactly one network request is made (no retry). -/
theorem terminal_failure_no_cache (env : Env) (url path : String)
    (t : Int) (fs : FileState)
    (hnofile : fs.content = none)
    (hfail : netFetchFails env url) :
    (fetch_cached_json env url path t fs).result =
      .error (.downloadError
        ("Failed to download data and no cache is available at " ++ path)) ∧
    (fetch_cached_json env url path t fs).requests = [theRequest env url] := by
  rcases hfail with h | ⟨status, body, h, hs⟩
  · simp [fetch_cached_json, hnofile, networkStep, h, staleFallback,
      downloadErrorMessage]
  · simp [fetch_cached_json, hnofile, networkStep, h, hs, staleFallback,
      downloadErrorMessage]

theorem terminal_failure_no_cache_witness :
    (fetch_cached_json (envW netDown) "u" "p" 3600 fsNone).result =
      .error (.downloadError
        ("Failed to download data and no cache is available at " ++ "p")) ∧
    (fetch_cached_json (envW netDown) "u" "p" 3600 fsNone).requests =
      [theRequest (envW netDown) "u"] :=
  terminal_failure_no_cache (envW netDown) "u" "p" 3600 fsNone rfl
    (Or.inl rfl)

/-! Helper lemmas shared by several claims. -/

theorem staleFallback_requests (env : Env) (path : String) (fs : FileState)
    (reqs : List Request) : (staleFallback env path fs reqs).requests = reqs := by
  unfold staleFallback
  split
  · split <;> rfl
  · rfl

theorem staleFallback_fs (env : Env) (path : String) (fs : FileState)
    (reqs : List Request) : (staleFallback env path fs reqs).fs = fs := by
  unfold staleFallback
  split
  · split <;> rfl
  · rfl

theorem networkStep_requests (env : Env) (url path : String)
    (fs : FileState) :
    (networkStep env url path fs).requests = [theRequest env url] := by
  simp only [networkStep]
  split
  · exact staleFallback_requests env path fs [theRequest env url]
  · split
    · split <;> rfl
    · exact staleFallback_requests env path fs [theRequest env url]

theorem networkStep_parentExists (env : Env) (url path : String)
    (fs : FileState) (h : fs.parentExists = true) :
    (networkStep env url path fs).fs.parentExists = true := by
  simp only [networkStep]
  split
  · rw [staleFallback_fs]; exact h
  · split
    · split <;> rfl
    · rw [staleFallback_fs]; exact h

/-- C4: when the cache is not fresh and the GET succeeds with a body that
parses, the call leaves at `path` the serialized value, whose parse equals
the returned value (round-trip identity), assuming the JSON library
round-trips on that value. -/
theorem success_fetch_roundtrip (env : Env) (url path : String) (t : Int)
    (fs : FileState) (status : Nat) (body : String) (v : Json)
    (hnotfresh : fs.content = none ∨ ¬ (env.now - fs.mtime < t))
    (hnet : env.net (theRequest env url) = .response status body)
    (hok : statusSuccess status = true)
    (hparse : env.lib.parse body = some v)
    (hround : env.lib.parse (env.lib.dump v) = some v) :
    (fetch_cached_json env url path t fs).fs.content =
      some (env.lib.dump v) ∧
    env.lib.parse (env.lib.dump v) = some v ∧
    (fetch_cached_json env url path t fs).result = .ok v := by
  rcases hc : fs.content with _ | c
  · refine ⟨?_, hround, ?_⟩ <;>
      simp [fetch_cached_json, hc, networkStep, hnet, hok, hparse]
  · have hstale : ¬ (env.now - fs.mtime < t) := by
      rcases hnotfresh with h | h
      · rw [hc] at h; exact absurd h (by simp)
      · exact h
    have hf : cacheFresh env.now fs.mtime t = false := decide_eq_false hstale
    refine ⟨?_, hround, ?_⟩ <;>
      simp [fetch_cached_json, hc, hf, networkStep, hnet, hok, hparse]

theorem success_fetch_roundtrip_witness :
    (fetch_cached_json (envW (netOk "x")) "u" "p" 3600 fsNone).fs.content =
      some ((envW (netOk "x")).lib.dump jsonA) ∧
    (envW (netOk "x")).lib.parse ((envW (netOk "x")).lib.dump jsonA) =
      some jsonA ∧
    (fetch_cached_json (envW (netOk "x")) "u" "p" 3600 fsNone).result =
      .ok jsonA :=
  success_fetch_roundtrip (envW (netOk "x")) "u" "p" 3600 fsNone 200 "x"
    jsonA (Or.inl rfl) rfl rfl rfl rfl

/-- C5: when the cache is not fresh, the GET completes with a success
status, and the body does not parse as JSON, the parse error propagates:
there is no fallback to the stale file even though one exists. -/
theorem fresh_download_parse_error_no_fallback (env : Env)
    (url path : String) (t : Int) (fs : FileState) (c : String)
    (status : Nat) (body : String)
    (hfile : fs.content = some c)
    (hstale : ¬ (env.now - fs.mtime < t))
    (hnet : env.net (theRequest env url) = .response status body)
    (hok : statusSuccess status = true)
    (hbad : env.lib.parse body = none) :
    (fetch_cached_json env url path t fs).result =
      .error .jsonParseError := by
  have hf : cacheFresh env.now fs.mtime t = false := decide_eq_false hstale
  simp [fetch_cached_json, hfile, hf, networkStep, hnet, hok, hbad]

theorem fresh_download_parse_error_no_fallback_witness :
    (fetch_cached_json (envW (netOk "bad")) "u" "p" 5 fsGood).result =
      .error .jsonParseError :=
  fresh_download_parse_error_no_fallback (envW (netOk "bad")) "u" "p" 5
    fsGood "good" 200 "bad" rfl (by decide) rfl rfl rfl

/-- C6: under the same conditions as C5 — stale file present, success
status, unparseable body — the file at `path` has already been truncated
by `open(path, "w")` when the parse error is raised, so the old cached
payload is destroyed: the final content is the empty string. -/
theorem fresh_download_parse_error_truncates (env : Env)
    (url path : String) (t : Int) (fs : FileState) (c : String)
    (status : Nat) (body : String)
    (hfile : fs.content = some c)
    (hstale : ¬ (env.now - fs.mtime < t))
    (hnet : env.net (theRequest env url) = .response status body)
    (hok : statusSuccess status = true)
    (hbad : env.lib.parse body = none) :
    (fetch_cached_json env url path t fs).fs.content = some "" ∧
    (fetch_cached_json env url path t fs).result =
      .error .jsonParseError := by
  have hf : cacheFresh env.now fs.mtime t = false := decide_eq_false hstale
  constructor <;>
    simp [fetch_cached_json, hfile, hf, networkStep, hnet, hok, hbad]

theorem fresh_download_parse_error_truncates_witness :
    (fetch_cached_json (envW (netOk "bad")) "u" "q" 5 fsGood).fs.content =
      some "" ∧
    (fetch_cached_json (envW (netOk "bad")) "u" "q" 5 fsGood).result =
      .error .jsonParseError :=
  fresh_download_parse_error_truncates (envW (netOk "bad")) "u" "q" 5
    fsGood "good" 200 "bad" rfl (by decide) rfl rfl rfl

/-- C7: when the file read on a cache-hit (fresh file) or on the
stale-fallback path (network fetch failed) does not parse as JSON, the
parse error propagates and the cache file is left exactly as it was — not
deleted, rewritten, or invalidated. -/
theorem malformed_cache_no_recovery (env : Env) (url path : String)
    (t : Int) (fs : FileState) (c : String)
    (hfile : fs.content = some c)
    (hbad : env.lib.parse c = none)
    (hcase : (env.now - fs.mtime < t) ∨ netFetchFails env url) :
    (fetch_cached_json env url path t fs).result =
      .error .jsonParseError ∧
    (fetch_cached_json env url path t fs).fs.content = some c := by
  by_cases hfr : env.now - fs.mtime < t
  · have hf : cacheFresh env.now fs.mtime t = true := decide_eq_true hfr
    constructor <;> simp [fetch_cached_json, hfile, hf, hbad]
  · have hf : cacheFresh env.now fs.mtime t = false := decide_eq_false hfr
    have hfail : netFetchFails env url := by
      rcases hcase with h | h
      · exact absurd h hfr
      · exact h
    rcases hfail with h | ⟨status, body, h, hs⟩
    · constructor <;>
        simp [fetch_cached_json, hfile, hf, networkStep, h, staleFallback,
          hbad]
    · constructor <;>
        simp [fetch_cached_json, hfile, hf, networkStep, h, hs,
          staleFallback, hbad]

theorem malformed_cache_no_recovery_witness :
    (fetch_cached_json (envW netDown) "u" "p" 5 fsBad).result =
      .error .jsonParseError ∧
    (fetch_cached_json (envW netDown) "u" "p" 5 fsBad).fs.content =
      some "bad" :=
  malformed_cache_no_recovery (envW netDown) "u" "p" 5 fsBad "bad" rfl rfl
    (Or.inr (Or.inl rfl))

/-- C8: whenever the cache is not fresh, exactly one network request is
issued: a GET to `url` carrying `Authorization: Bearer <key>` — the
credential the environment supplies to the call — and
`Content-Type: application/json`, with redirects followed. -/
theorem single_request_with_auth_headers (env : Env) (url path : String)
    (t : Int) (fs : FileState)
    (hnotfresh : fs.content = none ∨ ¬ (env.now - fs.mtime < t)) :
    (fetch_cached_json env url path t fs).requests =
      [⟨url, [("Authorization", "Bearer " ++ env.key),
              ("Content-Type", "application/json")], true⟩] := by
  have hform : theRequest env url =
      ⟨url, [("Authorization", "Bearer " ++ env.key),
             ("Content-Type", "application/json")], true⟩ := rfl
  rcases hc : fs.content with _ | c
  · rw [← hform]
    simp only [fetch_cached_json, hc]
    exact networkStep_requests env url path ⟨none, fs.mtime, true⟩
  · have hstale : ¬ (env.now - fs.mtime < t) := by
      rcases hnotfresh with h | h
      · rw [hc] at h; exact absurd h (by simp)
      · exact h
    have hfneg : ¬ (cacheFresh env.now fs.mtime t = true) := by
      simp [cacheFresh, hstale]
    rw [← hform]
    simp only [fetch_cached_json, hc]
    rw [if_neg hfneg]
    exact networkStep_requests env url path ⟨some c, fs.mtime, true⟩

theorem single_request_with_auth_headers_witness :
    (fetch_cached_json (envW netDown) "u" "p" 5 fsGood).requests =
      [⟨"u", [("Authorization", "Bearer " ++ (envW netDown).key),
              ("Content-Type", "application/json")], true⟩] :=
  single_request_with_auth_headers (envW netDown) "u" "p" 5 fsGood
    (Or.inr (by decide))

/-- C9: on every execution path — cache hits included — the parent
directories of `path` exist after the call: `mkdir(parents=True,
exist_ok=True)` runs unconditionally at entry. -/
theorem parent_dirs_always_created (env : Env) (url path : String)
    (t : Int) (fs : FileState) :
    (fetch_cached_json env url path t fs).fs.parentExists = true := by
  rcases hc : fs.content with _ | c
  · simp only [fetch_cached_json, hc]
    exact networkStep_parentExists env url path ⟨none, fs.mtime, true⟩ rfl
  · by_cases hfr : cacheFresh env.now fs.mtime t = true
    · rcases hp : env.lib.parse c with _ | v <;>
        simp [fetch_cached_json, hc, hfr, hp]
    · simp only [fetch_cached_json, hc]
      rw [if_neg hfr]
      exact networkStep_parentExists env url path ⟨some c, fs.mtime, true⟩
        rfl

/-- C10: `get_xAI_models` returns exactly the value under the `"data"` key
of the document `fetch_cached_json` produces, and when that document is a
mapping with no `"data"` key the subscript raises a `KeyError` instead of
returning. -/
theorem get_models_data_subscript (env : Env) (fs0 : FileState) :
    (∀ j v, (fetch_cached_json env "https://api.x.ai/v1/models"
        (env.userDir ++ "/xAI_models.json") 3600 fs0).result = .ok j →
      j.subscript "data" = .found v →
      (get_xAI_models env fs0).result = .ok v) ∧
    (∀ fields, (fetch_cached_json env "https://api.x.ai/v1/models"
        (env.userDir ++ "/xAI_models.json") 3600 fs0).result =
          .ok (.obj fields) →
      fields.lookup "data" = none →
      (get_xAI_models env fs0).result = .error (.keyError "data")) := by
  constructor
  · intro j v hfetch hsub
    simp [get_xAI_models, hfetch, hsub]
  · intro fields hfetch hlookup
    simp [get_xAI_models, hfetch, Json.subscript, hlookup]

theorem get_models_data_subscript_witness :
    (get_xAI_models (envW (netOk "x")) fsNone).result = .ok (.arr []) ∧
    (get_xAI_models (envW (netOk "nodata")) fsNone).result =
      .error (.keyError "data") :=
  ⟨(get_models_data_subscript (envW (netOk "x")) fsNone).1 jsonA (.arr [])
      rfl rfl,
   (get_models_data_subscript (envW (netOk "nodata")) fsNone).2 [] rfl rfl⟩

end LlmXai
